import Mathlib

/-!
Shallow embedding of `src/jedi/api/environment.py`.

Process-global inputs of the Python module (`sys.prefix`, `sys.executable`,
`sys.version_info`, the filesystem, the PATH lookup `find_executable`, and the
behaviour of spawning `executable --version`) are passed as explicit parameters:
the filesystem is the list of existing paths, a probe is a function from an
executable path to the outcome of running it with `--version`, and a PATH lookup
is a function from a name to the resolved executable (if any).
-/

/-- Version triple, mirroring `_VersionInfo = namedtuple('VersionInfo', 'major minor micro')`. -/
structure VersionInfo where
  major : Nat
  minor : Nat
  micro : Nat
deriving DecidableEq, Repr

/-- Outcome of trying to run `[executable, '--version']` via `Popen`:
either the spawn raises `OSError` (`launchFailure`), or the process terminates
with an exit code and captured stdout/stderr byte streams (modelled as chars). -/
inductive ProbeResult where
  | launchFailure : ProbeResult
  | finished (retcode : Int) (stdout stderr : List Char) : ProbeResult
deriving DecidableEq

/-- Decimal digit character for a value below ten (as produced by Python's str). -/
def digitChar : Nat → Char
  | 0 => '0' | 1 => '1' | 2 => '2' | 3 => '3' | 4 => '4'
  | 5 => '5' | 6 => '6' | 7 => '7' | 8 => '8' | _ => '9'

/-- Fuel-driven decimal rendering, most significant digit first. -/
def natToDigitsF : Nat → Nat → List Char
  | 0, _ => []
  | fuel + 1, n =>
    if n < 10 then [digitChar n]
    else natToDigitsF fuel (n / 10) ++ [digitChar (n % 10)]

/-- Decimal rendering of a natural number, mirroring Python's `'%s' % n`. -/
def natToDigits (n : Nat) : List Char := natToDigitsF (n + 1) n

/-- String form of `natToDigits`. -/
def natToString (n : Nat) : String := String.mk (natToDigits n)

/-- Value of a decimal digit string, mirroring Python's `int(m)` on a digit group. -/
def digitsToNat (ds : List Char) : Nat := ds.foldl (fun a c => a * 10 + (c.toNat - 48)) 0

/-- Maximal run of decimal digits at the head of the input, with the remainder:
the behaviour of the regex atom `(\d+)` (possibly empty run here; callers reject
the empty case, matching the `+`). -/
def takeDigits : List Char → List Char × List Char
  | [] => ([], [])
  | c :: cs =>
    if c.isDigit then
      let p := takeDigits cs
      (c :: p.1, p.2)
    else ([], c :: cs)

/-- True when the input does not begin with a decimal digit. -/
def headNotDigit : List Char → Bool
  | [] => true
  | c :: _ => !c.isDigit

/-- Strips an exact literal from the head of the input, mirroring the literal
part of an anchored regex match. -/
def dropLiteral : List Char → List Char → Option (List Char)
  | [], s => some s
  | _ :: _, [] => none
  | p :: ps, c :: cs => if c = p then dropLiteral ps cs else none

/-- The literal part of the pattern `br'Python (\d+)\.(\d+)\.(\d+)'`. -/
def pythonLiteral : List Char := ['P', 'y', 't', 'h', 'o', 'n', ' ']

/-- One `(\d+)` group: a nonempty digit run converted with `int`, plus the rest. -/
def parseNumber (s : List Char) : Option (Nat × List Char) :=
  match takeDigits s with
  | ([], _) => none
  | (ds, rest) => some (digitsToNat ds, rest)

/-- The literal `\.` of the pattern. -/
def expectDot : List Char → Option (List Char)
  | [] => none
  | c :: rest => if c = '.' then some rest else none

/-- The anchored match `re.match(br'Python (\d+)\.(\d+)\.(\d+)', output)`.
Greedy `(\d+)` before a literal `\.` is maximal-munch here: giving a digit back
would require `\.` to match a digit, so backtracking can never succeed where
the maximal run fails. -/
def matchPythonVersion (output : List Char) : Option VersionInfo :=
  (dropLiteral pythonLiteral output).bind fun r1 =>
    (parseNumber r1).bind fun p1 =>
      (expectDot p1.2).bind fun r3 =>
        (parseNumber r3).bind fun p2 =>
          (expectDot p2.2).bind fun r5 =>
            (parseNumber r5).map fun p3 => ⟨p1.1, p2.1, p3.1⟩

/-- Embedding of `_get_version(executable)` applied to the outcome of the spawn:
`OSError` during `Popen` raises `InvalidPythonEnvironment`; a truthy (nonzero)
`retcode` raises; then `stdout + stderr` is matched against the version pattern
and a failed match raises; otherwise the parsed triple is returned. -/
def _get_version (r : ProbeResult) : Except Unit VersionInfo :=
  match r with
  | .launchFailure => .error ()
  | .finished retcode stdout stderr =>
    if retcode ≠ 0 then .error ()
    else
      match matchPythonVersion (stdout ++ stderr) with
      | none => .error ()
      | some v => .ok v

/-- Embedding of class `Environment`: `_base_path`, `_executable`, and the
`version_info` attribute that `__init__` fills by probing. -/
structure Environment where
  base_path : String
  executable : String
  version_info : VersionInfo
deriving DecidableEq, Repr

/-- Embedding of `Environment.__init__(path, executable)`: it runs
`_get_version(executable)` immediately; a probe failure propagates, so no
instance exists on failure. -/
def Environment.construct (path executable : String) (probe : String → ProbeResult) :
    Except Unit Environment :=
  match _get_version (probe executable) with
  | .error e => .error e
  | .ok v => .ok { base_path := path, executable := executable, version_info := v }

/-- Embedding of class `InterpreterEnvironment`: version comes from
`sys.version_info[:3]` (the host's own version), no subprocess involved. -/
structure InterpreterEnvironment where
  version_info : VersionInfo
deriving DecidableEq, Repr

/-- Embedding of `InterpreterEnvironment.__init__`: stores the host version directly. -/
def InterpreterEnvironment.construct (hostVersion : VersionInfo) : InterpreterEnvironment :=
  { version_info := hostVersion }

/-- The two adapter kinds returned by `get_evaluator_subprocess`:
`EvaluatorSameProcess` and `EvaluatorSubprocess` (external collaborators,
kept opaque; the subprocess one is bound to the environment's executable). -/
inductive EvaluatorChannel where
  | sameProcess
  | subprocess (executable : String)
deriving DecidableEq, Repr

/-- Embedding of `Environment.get_evaluator_subprocess`: always the
subprocess-delegation adapter, bound to `self._executable`. -/
def Environment.get_evaluator_subprocess (e : Environment) : EvaluatorChannel :=
  .subprocess e.executable

/-- Embedding of `InterpreterEnvironment.get_evaluator_subprocess`: always the
same-process adapter. -/
def InterpreterEnvironment.get_evaluator_subprocess (_e : InterpreterEnvironment) :
    EvaluatorChannel :=
  .sameProcess

/-- True when the string begins with a slash. -/
def startsWithSlash (s : String) : Bool :=
  match s.data with
  | [] => false
  | c :: _ => c = '/'

/-- True when the string ends with a slash. -/
def endsWithSlash (s : String) : Bool :=
  match s.data.reverse with
  | [] => false
  | c :: _ => c = '/'

/-- Embedding of `os.path.join(a, b)` (posix, one component). -/
def joinPath (a b : String) : String :=
  if startsWithSlash b then b
  else if a = "" || endsWithSlash a then a ++ b
  else a ++ "/" ++ b

/-- The part of a path up to and including its last slash (empty if no slash). -/
def headToLastSlash : List Char → List Char
  | [] => []
  | c :: cs =>
    if cs.contains '/' then c :: headToLastSlash cs
    else if c = '/' then ['/'] else []

/-- Removes trailing slashes. -/
def stripTrailingSlashes (cs : List Char) : List Char :=
  (cs.reverse.dropWhile (fun c => c = '/')).reverse

/-- Embedding of `os.path.dirname` (posix): head up to the last slash, with
trailing slashes stripped unless the head is nothing but slashes. -/
def dirname (s : String) : String :=
  let head := headToLastSlash s.data
  if head.isEmpty || head.all (fun c => c = '/') then String.mk head
  else String.mk (stripTrailingSlashes head)

/-- Embedding of `_get_executable_path(path)`: requires `path/bin/activate` and
`path/bin/python` to both exist, returns the interpreter path, else raises
`InvalidPythonEnvironment`. `fs` is the list of existing paths. -/
def _get_executable_path (fs : List String) (path : String) : Except Unit String :=
  let bin_folder := joinPath path "bin"
  let activate := joinPath bin_folder "activate"
  let python := joinPath bin_folder "python"
  if activate ∈ fs ∧ python ∈ fs then .ok python else .error ()

/-- The body of the loop of `find_virtualenvs`: validate the directory, then
construct the Environment (which probes); `except InvalidPythonEnvironment: pass`
turns either failure into a skip. -/
def tryVirtualenv (fs : List String) (probe : String → ProbeResult) (path : String) :
    Option Environment :=
  match _get_executable_path fs path with
  | .error _ => none
  | .ok exe =>
    match Environment.construct path exe probe with
    | .error _ => none
    | .ok env => some env

/-- The loop of `find_virtualenvs` over the given paths. -/
def find_virtualenvs_go (fs : List String) (probe : String → ProbeResult) :
    List String → List Environment
  | [] => []
  | p :: rest =>
    match tryVirtualenv fs probe p with
    | none => find_virtualenvs_go fs probe rest
    | some env => env :: find_virtualenvs_go fs probe rest

/-- Embedding of `find_virtualenvs(paths=None)`; `none` models the `None`
default, which is replaced by the empty list. -/
def find_virtualenvs (fs : List String) (probe : String → ProbeResult)
    (paths : Option (List String)) : List Environment :=
  find_virtualenvs_go fs probe (paths.getD [])

/-- Embedding of `get_default_environment()`: `Environment(sys.prefix, sys.executable)`,
with the two `sys` values passed explicitly. -/
def get_default_environment (sysPre sysExecutable : String) (probe : String → ProbeResult) :
    Except Unit Environment :=
  Environment.construct sysPre sysExecutable probe

/-- Embedding of `get_python_environment(python_name)`: PATH lookup via
`find_executable`, failure raises; on success the base path is
`dirname(dirname(exe))` and the Environment is constructed (probing). -/
def get_python_environment (findExecutable : String → Option String)
    (probe : String → ProbeResult) (python_name : String) : Except Unit Environment :=
  match findExecutable python_name with
  | none => .error ()
  | some exe => Environment.construct (dirname (dirname exe)) exe probe

/-- Embedding of `create_environment(path)`: validate the directory (failure
propagates), then construct the Environment (probing; failure propagates). -/
def create_environment (fs : List String) (probe : String → ProbeResult) (path : String) :
    Except Unit Environment :=
  match _get_executable_path fs path with
  | .error e => .error e
  | .ok exe => Environment.construct path exe probe

/-- The module constant `_SUPPORTED_PYTHONS = ['2.7', '3.3', '3.4', '3.5', '3.6']`. -/
def _SUPPORTED_PYTHONS : List String := ["2.7", "3.3", "3.4", "3.5", "3.6"]

/-- The `'%s.%s' % (sys.version_info.major, sys.version_info.minor)` string. -/
def currentVersionString (v : VersionInfo) : String :=
  natToString v.major ++ "." ++ natToString v.minor

/-- The loop of `find_python_environments` over the supported tags. The Bool
records whether the enumeration raised: the `yield get_default_environment()`
branch is not guarded by a try/except, so a probe failure there escapes the
generator (later tags are then never reached); the other branch catches
`InvalidPythonEnvironment` and skips the tag. -/
def find_python_environments_go (sysPre sysExecutable : String) (hostVersion : VersionInfo)
    (findExecutable : String → Option String) (probe : String → ProbeResult) :
    List String → List Environment × Bool
  | [] => ([], false)
  | tag :: rest =>
    if tag = currentVersionString hostVersion then
      match get_default_environment sysPre sysExecutable probe with
      | .error _ => ([], true)
      | .ok env =>
        let r := find_python_environments_go sysPre sysExecutable hostVersion findExecutable probe rest
        (env :: r.1, r.2)
    else
      match get_python_environment findExecutable probe ("python" ++ tag) with
      | .error _ => find_python_environments_go sysPre sysExecutable hostVersion findExecutable probe rest
      | .ok env =>
        let r := find_python_environments_go sysPre sysExecutable hostVersion findExecutable probe rest
        (env :: r.1, r.2)

/-- Embedding of `find_python_environments()`: the yielded Environments, fully
consumed, plus whether the generator raised. -/
def find_python_environments (sysPre sysExecutable : String) (hostVersion : VersionInfo)
    (findExecutable : String → Option String) (probe : String → ProbeResult) :
    List Environment × Bool :=
  find_python_environments_go sysPre sysExecutable hostVersion findExecutable probe _SUPPORTED_PYTHONS

/-- Modelled from the spec: `Environment.get_sys_path` is decorated with
`memoize_method` from `jedi.cache`, which is not under `src/`; per the spec it
"Caches result; subsequent accesses are pure reads". One call is one step over
an explicit cache cell; the `Nat` counts subprocess invocations the step makes
(the underlying `get_sys_path` query spawns once). -/
def get_sys_path_step (query : String → List String) (exe : String) :
    Option (List String) → List String × Option (List String) × Nat
  | some v => (v, some v, 0)
  | none => (query exe, some (query exe), 1)

/-- A sequence of `k` calls to the memoized `get_sys_path` on one instance:
returned values, final cache state, and the total number of spawns. -/
def get_sys_path_calls (query : String → List String) (exe : String) :
    Nat → Option (List String) → List (List String) × Option (List String) × Nat
  | 0, st => ([], st, 0)
  | k + 1, st =>
    let s := get_sys_path_step query exe st
    let r := get_sys_path_calls query exe k s.2.1
    (s.1 :: r.1, r.2.1, s.2.2 + r.2.2)

/-- Reading `version_info` on an existing instance is a plain attribute access in
the source (the probe already ran inside `Environment.__init__`), so an access
spawns no subprocess: the spawn count of an access is 0. -/
def version_access (e : Environment) : VersionInfo × Nat := (e.version_info, 0)

/-- Process-wide cell backing the InProcess singleton, with a counter handing
out identity tags to newly created instances. -/
structure ProcessState where
  next_id : Nat
  cached : Option (Nat × InterpreterEnvironment)
deriving DecidableEq, Repr

/-- Modelled from the spec: `interpreter_environment()` "returns the singleton
InProcess Environment". Only the `InterpreterEnvironment` class itself is under
`src/`, so the process-wide cell backing the singleton accessor is modelled
here: the first retrieval creates and caches an instance (with a fresh identity
tag), every later retrieval returns the cached one. -/
def interpreter_environment (hostVersion : VersionInfo) (st : ProcessState) :
    (Nat × InterpreterEnvironment) × ProcessState :=
  match st.cached with
  | some e => (e, st)
  | none =>
    let e := (st.next_id, InterpreterEnvironment.construct hostVersion)
    (e, { next_id := st.next_id + 1, cached := some e })

/-- The synthetic probe output `Python <a>.<b>.<c>` of the spec's testable property. -/
def pythonVersionOutput (a b c : Nat) : List Char :=
  pythonLiteral ++ natToDigits a ++ '.' :: (natToDigits b ++ '.' :: natToDigits c)

theorem natToDigitsF_fuel (f : Nat) : ∀ (f' n : Nat), n < f → n < f' →
    natToDigitsF f n = natToDigitsF f' n := by
  induction f with
  | zero => intro f' n h; omega
  | succ f ih =>
    intro f' n hf hf'
    cases f' with
    | zero => omega
    | succ f' =>
      simp only [natToDigitsF]
      by_cases h : n < 10
      · simp [h]
      · have hn : 0 < n := by omega
        have hd : n / 10 < n := Nat.div_lt_self hn (by omega)
        simp only [h, if_false]
        rw [ih f' (n / 10) (by omega) (by omega)]

theorem natToDigits_unfold (n : Nat) :
    natToDigits n = if n < 10 then [digitChar n]
      else natToDigits (n / 10) ++ [digitChar (n % 10)] := by
  by_cases h : n < 10
  · simp [natToDigits, natToDigitsF, h]
  · have hn : 0 < n := by omega
    have hd : n / 10 < n := Nat.div_lt_self hn (by omega)
    have h1 : natToDigits n = natToDigitsF n (n / 10) ++ [digitChar (n % 10)] := by
      show natToDigitsF (n + 1) n = _
      rw [natToDigitsF, if_neg h]
    rw [h1, natToDigitsF_fuel n (n / 10 + 1) (n / 10) (by omega) (by omega), if_neg h]
    rfl

theorem natToDigits_ne_nil (n : Nat) : natToDigits n ≠ [] := by
  rw [natToDigits_unfold]
  by_cases h : n < 10 <;> simp [h]

theorem digitChar_isDigit (d : Nat) (h : d < 10) : (digitChar d).isDigit = true := by
  interval_cases d <;> decide

theorem digitChar_toNat (d : Nat) (h : d < 10) : (digitChar d).toNat = 48 + d := by
  interval_cases d <;> decide

theorem natToDigits_all_digit (n : Nat) : ∀ c ∈ natToDigits n, c.isDigit = true := by
  induction n using Nat.strong_induction_on with
  | _ n ih =>
    rw [natToDigits_unfold]
    by_cases h : n < 10
    · simp only [h, if_true, List.mem_singleton]
      intro c hc
      subst hc
      exact digitChar_isDigit n h
    · have hn : 0 < n := by omega
      simp only [h, if_false]
      intro c hc
      rcases List.mem_append.mp hc with h1 | h1
      · exact ih (n / 10) (Nat.div_lt_self hn (by omega)) c h1
      · rw [List.mem_singleton.mp h1]
        exact digitChar_isDigit (n % 10) (Nat.mod_lt _ (by omega))

theorem digitsToNat_append_one (ds : List Char) (c : Char) :
    digitsToNat (ds ++ [c]) = digitsToNat ds * 10 + (c.toNat - 48) := by
  unfold digitsToNat
  rw [List.foldl_append]
  rfl

theorem digitsToNat_natToDigits (n : Nat) : digitsToNat (natToDigits n) = n := by
  induction n using Nat.strong_induction_on with
  | _ n ih =>
    rw [natToDigits_unfold]
    by_cases h : n < 10
    · simp only [h, if_true]
      show 0 * 10 + ((digitChar n).toNat - 48) = n
      rw [digitChar_toNat n h]
      omega
    · have hn : 0 < n := by omega
      simp only [h, if_false]
      rw [digitsToNat_append_one, ih (n / 10) (Nat.div_lt_self hn (by omega)),
        digitChar_toNat (n % 10) (Nat.mod_lt _ (by omega))]
      omega

theorem takeDigits_stop (s : List Char) (hs : headNotDigit s = true) :
    takeDigits s = ([], s) := by
  cases s with
  | nil => rfl
  | cons c cs =>
    simp only [headNotDigit, Bool.not_eq_true'] at hs
    simp [takeDigits, hs]

theorem takeDigits_run (ds : List Char) (rest : List Char)
    (hds : ∀ c ∈ ds, c.isDigit = true) (hrest : headNotDigit rest = true) :
    takeDigits (ds ++ rest) = (ds, rest) := by
  induction ds with
  | nil => simpa using takeDigits_stop rest hrest
  | cons c cs ih =>
    have hc : c.isDigit = true := hds c (by simp)
    have ht : takeDigits (cs ++ rest) = (cs, rest) := ih (fun x hx => hds x (by simp [hx]))
    show takeDigits (c :: (cs ++ rest)) = (c :: cs, rest)
    rw [takeDigits]
    simp [hc, ht]

theorem dropLiteral_exact (ps : List Char) (s : List Char) :
    dropLiteral ps (ps ++ s) = some s := by
  induction ps with
  | nil => rfl
  | cons p ps ih => simp [dropLiteral, ih]

theorem parseNumber_run (n : Nat) (rest : List Char) (hrest : headNotDigit rest = true) :
    parseNumber (natToDigits n ++ rest) = some (n, rest) := by
  unfold parseNumber
  rw [takeDigits_run (natToDigits n) rest (natToDigits_all_digit n) hrest]
  rcases h : natToDigits n with _ | ⟨d, ds⟩
  · exact absurd h (natToDigits_ne_nil n)
  · show some (digitsToNat (d :: ds), rest) = some (n, rest)
    rw [← h, digitsToNat_natToDigits]

theorem headNotDigit_dot (s : List Char) : headNotDigit ('.' :: s) = true := rfl

theorem expectDot_dot (s : List Char) : expectDot ('.' :: s) = some s := by
  rw [expectDot]
  simp

theorem matchPythonVersion_output (a b c : Nat) (rest : List Char)
    (hrest : headNotDigit rest = true) :
    matchPythonVersion (pythonVersionOutput a b c ++ rest) = some ⟨a, b, c⟩ := by
  have hsh : pythonVersionOutput a b c ++ rest =
      pythonLiteral ++ (natToDigits a ++ '.' :: (natToDigits b ++ '.' :: (natToDigits c ++ rest))) := by
    simp [pythonVersionOutput, List.append_assoc]
  rw [hsh]
  unfold matchPythonVersion
  rw [dropLiteral_exact, Option.some_bind,
    parseNumber_run a ('.' :: (natToDigits b ++ '.' :: (natToDigits c ++ rest))) rfl,
    Option.some_bind]
  simp only [expectDot_dot, Option.some_bind,
    parseNumber_run b ('.' :: (natToDigits c ++ rest)) rfl,
    parseNumber_run c rest hrest, Option.map_some']

theorem Environment.construct_ok (path exe : String) (probe : String → ProbeResult)
    (env : Environment) (h : Environment.construct path exe probe = Except.ok env) :
    env.base_path = path ∧ env.executable = exe
      ∧ _get_version (probe exe) = Except.ok env.version_info := by
  unfold Environment.construct at h
  cases hv : _get_version (probe exe) with
  | error e => rw [hv] at h; exact absurd h (by simp)
  | ok v =>
    rw [hv] at h
    simp only [Except.ok.injEq] at h
    subst h
    exact ⟨rfl, rfl, rfl⟩

/-- C1: counterexample. The claim says constructing the default environment runs
no version probe at construction time; but with an executable that cannot be
launched, `get_default_environment` already fails at construction, so the probe
runs inside `Environment.__init__`, not lazily on first access of `version`. -/
theorem C1_counterexample :
    get_default_environment "/usr" "/usr/bin/python3" (fun _ => ProbeResult.launchFailure) =
      Except.error () := rfl

/-- C1 (amended): constructing the default environment runs the version probe at
construction time: `get_default_environment` succeeds exactly when probing the
host executable parses a version, the returned Environment already carries that
version, and a probe failure makes construction itself fail. For the InProcess
kind no probe is ever run: `InterpreterEnvironment` stores the host's own
version directly. -/
theorem C1_amended (pre exe : String) (probe : String → ProbeResult) :
    (∀ v, _get_version (probe exe) = Except.ok v →
      get_default_environment pre exe probe = Except.ok ⟨pre, exe, v⟩)
    ∧ (_get_version (probe exe) = Except.error () →
      get_default_environment pre exe probe = Except.error ())
    ∧ (∀ hv : VersionInfo, (InterpreterEnvironment.construct hv).version_info = hv) := by
  unfold get_default_environment Environment.construct
  refine ⟨fun v hv => by rw [hv], fun hv => by rw [hv], fun hv => rfl⟩

/-- Witness for C1 (amended) at a concrete probe that reports `Python 3.6.5`. -/
theorem C1_amended_witness :
    get_default_environment "/usr" "/usr/bin/python3"
      (fun _ => ProbeResult.finished 0 (pythonVersionOutput 3 6 5) []) =
      Except.ok ⟨"/usr", "/usr/bin/python3", ⟨3, 6, 5⟩⟩ :=
  (C1_amended "/usr" "/usr/bin/python3"
    (fun _ => ProbeResult.finished 0 (pythonVersionOutput 3 6 5) [])).1 ⟨3, 6, 5⟩ rfl

/-- C2: for every non-negative triple (a, b, c), whenever the combined output
`stdout + stderr` of a zero-exit probe starts with `Python a.b.c` (the next
character, if any, not a digit), `_get_version` returns exactly that triple —
regardless of how the output is split between the stdout and stderr streams. -/
theorem C2_version_roundtrip (a b c : Nat) (stdout stderr rest : List Char)
    (hsplit : stdout ++ stderr = pythonVersionOutput a b c ++ rest)
    (hrest : headNotDigit rest = true) :
    _get_version (ProbeResult.finished 0 stdout stderr) = Except.ok ⟨a, b, c⟩ := by
  have hm : matchPythonVersion (stdout ++ stderr) = some ⟨a, b, c⟩ := by
    rw [hsplit]
    exact matchPythonVersion_output a b c rest hrest
  simp [_get_version, hm]

/-- Witness for C2 with the whole version string on the stderr stream. -/
theorem C2_version_roundtrip_witness :
    (([] : List Char) ++ (pythonVersionOutput 3 6 5 ++ ['\n']) =
      pythonVersionOutput 3 6 5 ++ ['\n'])
    ∧ headNotDigit ['\n'] = true
    ∧ _get_version (ProbeResult.finished 0 [] (pythonVersionOutput 3 6 5 ++ ['\n'])) =
      Except.ok ⟨3, 6, 5⟩ :=
  ⟨rfl, rfl, C2_version_roundtrip 3 6 5 [] (pythonVersionOutput 3 6 5 ++ ['\n']) ['\n'] rfl rfl⟩

/-- C3: `_get_version` fails (raising `InvalidPythonEnvironment`) in exactly
three cases — the executable cannot be started, the process exits nonzero, or
the combined output does not match the version pattern — and on success it
returns precisely the parsed triple (fully populated by construction). -/
theorem C3_failure_trichotomy (r : ProbeResult) :
    (_get_version r = Except.error () ↔
      r = ProbeResult.launchFailure
      ∨ (∃ code stdout stderr, r = ProbeResult.finished code stdout stderr ∧ code ≠ 0)
      ∨ (∃ code stdout stderr, r = ProbeResult.finished code stdout stderr ∧ code = 0
          ∧ matchPythonVersion (stdout ++ stderr) = none))
    ∧ (∀ v, _get_version r = Except.ok v →
      ∃ code stdout stderr, r = ProbeResult.finished code stdout stderr ∧ code = 0
        ∧ matchPythonVersion (stdout ++ stderr) = some v) := by
  constructor
  · cases r with
    | launchFailure =>
      exact ⟨fun _ => Or.inl rfl, fun _ => rfl⟩
    | finished code stdout stderr =>
      by_cases hc : code = 0
      · subst hc
        cases hm : matchPythonVersion (stdout ++ stderr) with
        | none =>
          have hval : _get_version (ProbeResult.finished 0 stdout stderr) =
              Except.error () := by simp [_get_version, hm]
          exact ⟨fun _ => Or.inr (Or.inr ⟨0, stdout, stderr, rfl, rfl, hm⟩), fun _ => hval⟩
        | some w =>
          have hval : _get_version (ProbeResult.finished 0 stdout stderr) =
              Except.ok w := by simp [_get_version, hm]
          constructor
          · intro he
            rw [hval] at he
            exact absurd he (by simp)
          · rintro (h | ⟨code, s1, s2, heq, hne⟩ | ⟨code, s1, s2, heq, hz, hm2⟩)
            · exact absurd h (by simp)
            · injection heq with h1 h2 h3
              omega
            · injection heq with h1 h2 h3
              subst h2
              subst h3
              rw [hm] at hm2
              exact absurd hm2 (by simp)
      · have hval : _get_version (ProbeResult.finished code stdout stderr) =
            Except.error () := by simp [_get_version, hc]
        exact ⟨fun _ => Or.inr (Or.inl ⟨code, stdout, stderr, rfl, hc⟩), fun _ => hval⟩
  · intro v hv
    cases r with
    | launchFailure => exact absurd hv (by simp [_get_version])
    | finished code stdout stderr =>
      by_cases hc : code = 0
      · subst hc
        cases hm : matchPythonVersion (stdout ++ stderr) with
        | none =>
          have hval : _get_version (ProbeResult.finished 0 stdout stderr) =
              Except.error () := by simp [_get_version, hm]
          rw [hval] at hv
          exact absurd hv (by simp)
        | some w =>
          have hval : _get_version (ProbeResult.finished 0 stdout stderr) =
              Except.ok w := by simp [_get_version, hm]
          rw [hval] at hv
          simp only [Except.ok.injEq] at hv
          subst hv
          exact ⟨0, stdout, stderr, rfl, rfl, hm⟩
      · have hval : _get_version (ProbeResult.finished code stdout stderr) =
            Except.error () := by simp [_get_version, hc]
        rw [hval] at hv
        exact absurd hv (by simp)

/-- Witness for C3's success direction at a concrete parsed output. -/
theorem C3_failure_trichotomy_witness :
    ∃ code stdout stderr,
      ProbeResult.finished 0 (pythonVersionOutput 3 6 5) [] =
        ProbeResult.finished code stdout stderr
      ∧ code = 0 ∧ matchPythonVersion (stdout ++ stderr) = some ⟨3, 6, 5⟩ :=
  (C3_failure_trichotomy (ProbeResult.finished 0 (pythonVersionOutput 3 6 5) [])).2
    ⟨3, 6, 5⟩ rfl

/-- C4: `_get_executable_path` succeeds with `path/bin/python` precisely when
both `path/bin/activate` and `path/bin/python` exist, and fails with
`InvalidPythonEnvironment` (no partial result possible) in the remaining three
of the four presence/absence combinations. -/
theorem C4_validate_directory (fs : List String) (path : String) :
    (_get_executable_path fs path = Except.ok (joinPath (joinPath path "bin") "python") ↔
      joinPath (joinPath path "bin") "activate" ∈ fs
        ∧ joinPath (joinPath path "bin") "python" ∈ fs)
    ∧ (_get_executable_path fs path = Except.error () ↔
      ¬(joinPath (joinPath path "bin") "activate" ∈ fs
        ∧ joinPath (joinPath path "bin") "python" ∈ fs)) := by
  unfold _get_executable_path
  by_cases h : joinPath (joinPath path "bin") "activate" ∈ fs
    ∧ joinPath (joinPath path "bin") "python" ∈ fs <;>
    simp [h]

/-- Witness for C4 on a directory with both markers present. -/
theorem C4_validate_directory_witness :
    _get_executable_path ["/venv/bin/activate", "/venv/bin/python"] "/venv" =
      Except.ok "/venv/bin/python" :=
  ((C4_validate_directory ["/venv/bin/activate", "/venv/bin/python"] "/venv").1).mpr
    (by decide)

/-- C5: `find_virtualenvs` is total (it cannot raise: every per-candidate
failure of validation or probing is caught and skipped) and yields exactly the
Environments of the valid candidates, in input order — equivalently it is the
`filterMap` of the per-candidate builder over the input list. On a list with one
valid directory between two invalid ones it yields exactly the one Environment,
in the position corresponding to the valid directory. -/
theorem C5_find_virtualenvs :
    (∀ (fs : List String) (probe : String → ProbeResult) (paths : List String),
      find_virtualenvs fs probe (some paths) = paths.filterMap (tryVirtualenv fs probe))
    ∧ find_virtualenvs ["/venv/bin/activate", "/venv/bin/python"]
        (fun _ => ProbeResult.finished 0 (pythonVersionOutput 3 6 5) [])
        (some ["/bad1", "/venv", "/bad2"]) =
      [{ base_path := "/venv", executable := "/venv/bin/python", version_info := ⟨3, 6, 5⟩ }] := by
  constructor
  · intro fs probe paths
    show find_virtualenvs_go fs probe paths = paths.filterMap (tryVirtualenv fs probe)
    induction paths with
    | nil => rfl
    | cons p rest ih =>
      rw [find_virtualenvs_go, List.filterMap_cons]
      cases tryVirtualenv fs probe p <;> simp [ih]
  · rfl

/-- C6: the InProcess environment's execution channel is always the
same-process adapter, and any Discovered Environment's execution channel is
always the subprocess-delegation adapter bound to its executable (in
particular never the same-process one) — the universal quantification over
`Environment` includes environments whose `version_info` equals the host's,
so the choice does not depend on any version comparison. -/
theorem C6_execution_channel :
    (∀ e : InterpreterEnvironment,
      e.get_evaluator_subprocess = EvaluatorChannel.sameProcess)
    ∧ (∀ e : Environment,
      e.get_evaluator_subprocess = EvaluatorChannel.subprocess e.executable
      ∧ e.get_evaluator_subprocess ≠ EvaluatorChannel.sameProcess) := by
  refine ⟨fun e => rfl, fun e => ⟨rfl, ?_⟩⟩
  simp [Environment.get_evaluator_subprocess]

/-- C7: counterexample. The claim says the tag equal to the host's version is
yielded as the default environment "without re-probing a version that is
already known", and that every failure is silently skipped. With the host at
version 3.6.5 (tag "3.6" is in the supported list) and a probe that cannot
launch anything, the enumeration yields nothing and raises — so the host tag
does re-probe, and that failure is not skipped. -/
theorem C7_counterexample :
    find_python_environments "/usr" "/usr/bin/python3" ⟨3, 6, 5⟩ (fun _ => none)
      (fun _ => ProbeResult.launchFailure) = ([], true) := rfl

/-- The per-tag candidate of `find_python_environments` when the host probe
reports version `v`: the host's own tag contributes the default environment
(with the freshly probed `v`), any other tag contributes the result of
`get_python_environment` when it succeeds. -/
def supportedTagEnvironment (sysPre sysExecutable : String) (hostVersion : VersionInfo)
    (v : VersionInfo) (findExecutable : String → Option String)
    (probe : String → ProbeResult) (tag : String) : Option Environment :=
  if tag = currentVersionString hostVersion then some ⟨sysPre, sysExecutable, v⟩
  else (get_python_environment findExecutable probe ("python" ++ tag)).toOption

theorem find_python_environments_go_ok (sysPre sysExecutable : String)
    (hostVersion v : VersionInfo) (findExecutable : String → Option String)
    (probe : String → ProbeResult)
    (hprobe : _get_version (probe sysExecutable) = Except.ok v) (tags : List String) :
    find_python_environments_go sysPre sysExecutable hostVersion findExecutable probe tags =
      (tags.filterMap
        (supportedTagEnvironment sysPre sysExecutable hostVersion v findExecutable probe),
        false) := by
  induction tags with
  | nil => rfl
  | cons tag rest ih =>
    rw [find_python_environments_go, List.filterMap_cons]
    by_cases htag : tag = currentVersionString hostVersion
    · subst htag
      have hdef : get_default_environment sysPre sysExecutable probe =
          Except.ok ⟨sysPre, sysExecutable, v⟩ := by
        unfold get_default_environment Environment.construct
        rw [hprobe]
      have hhd : supportedTagEnvironment sysPre sysExecutable hostVersion v findExecutable
          probe (currentVersionString hostVersion) = some ⟨sysPre, sysExecutable, v⟩ := by
        unfold supportedTagEnvironment
        rw [if_pos rfl]
      simp [hdef, hhd, ih]
    · have hhd : supportedTagEnvironment sysPre sysExecutable hostVersion v findExecutable
          probe tag =
          (get_python_environment findExecutable probe ("python" ++ tag)).toOption := by
        unfold supportedTagEnvironment
        rw [if_neg htag]
      cases hg : get_python_environment findExecutable probe ("python" ++ tag) with
      | error e => simp [htag, hg, hhd, ih, Except.toOption]
      | ok env => simp [htag, hg, hhd, ih, Except.toOption]

theorem find_python_environments_go_err (sysPre sysExecutable : String)
    (hostVersion : VersionInfo) (findExecutable : String → Option String)
    (probe : String → ProbeResult)
    (hprobe : _get_version (probe sysExecutable) = Except.error ()) (tags : List String)
    (htag : currentVersionString hostVersion ∈ tags) :
    (find_python_environments_go sysPre sysExecutable hostVersion findExecutable probe
      tags).2 = true := by
  induction tags with
  | nil => exact absurd htag (by simp)
  | cons tag rest ih =>
    rw [find_python_environments_go]
    by_cases h : tag = currentVersionString hostVersion
    · have hdef : get_default_environment sysPre sysExecutable probe = Except.error () := by
        unfold get_default_environment Environment.construct
        rw [hprobe]
      simp [h, hdef]
    · have hmem : currentVersionString hostVersion ∈ rest := by
        rcases List.mem_cons.mp htag with h1 | h1
        · exact absurd h1.symm h
        · exact h1
      cases hg : get_python_environment findExecutable probe ("python" ++ tag) with
      | error e => simp [h, hg, ih hmem]
      | ok env => simp [h, hg, ih hmem]

/-- C7 (amended): `find_python_environments` walks the fixed supported-version
list in order. For the tag equal to the host's current major.minor it yields
the default environment; building it re-probes the host executable (the
already-known version is not reused), and since this branch is not guarded by
a try/except, a probe failure there escapes the enumeration instead of being
skipped. For every other tag it resolves `"python" + tag` on the search path,
builds an Environment whose base path is `dirname(dirname(exe))`, and silently
skips the tag on any resolution or probing failure. -/
theorem C7_amended (sysPre sysExecutable : String) (hostVersion : VersionInfo)
    (findExecutable : String → Option String) (probe : String → ProbeResult) :
    (∀ v, _get_version (probe sysExecutable) = Except.ok v →
      find_python_environments sysPre sysExecutable hostVersion findExecutable probe =
        (_SUPPORTED_PYTHONS.filterMap
          (supportedTagEnvironment sysPre sysExecutable hostVersion v findExecutable probe),
          false))
    ∧ (_get_version (probe sysExecutable) = Except.error () →
      currentVersionString hostVersion ∈ _SUPPORTED_PYTHONS →
      (find_python_environments sysPre sysExecutable hostVersion findExecutable probe).2 =
        true)
    ∧ (∀ name env, get_python_environment findExecutable probe name = Except.ok env →
      ∃ exe, findExecutable name = some exe
        ∧ env.base_path = dirname (dirname exe)
        ∧ env.executable = exe
        ∧ _get_version (probe exe) = Except.ok env.version_info) := by
  refine ⟨?_, ?_, ?_⟩
  · intro v hv
    exact find_python_environments_go_ok sysPre sysExecutable hostVersion v findExecutable
      probe hv _SUPPORTED_PYTHONS
  · intro hv hmem
    exact find_python_environments_go_err sysPre sysExecutable hostVersion findExecutable
      probe hv _SUPPORTED_PYTHONS hmem
  · intro name env h
    unfold get_python_environment at h
    cases hf : findExecutable name with
    | none => rw [hf] at h; exact absurd h (by simp)
    | some exe =>
      rw [hf] at h
      obtain ⟨h1, h2, h3⟩ := Environment.construct_ok _ _ _ _ h
      exact ⟨exe, rfl, h1, h2, h3⟩

/-- Witness for C7 (amended): host at 3.6.5, name resolution finding nothing,
probe reporting `Python 3.6.5`; the enumeration yields exactly the default
environment and does not raise. -/
theorem C7_amended_witness :
    find_python_environments "/usr" "/usr/bin/python3" ⟨3, 6, 5⟩ (fun _ => none)
      (fun _ => ProbeResult.finished 0 (pythonVersionOutput 3 6 5) []) =
      ([⟨"/usr", "/usr/bin/python3", ⟨3, 6, 5⟩⟩], false) := by
  rw [(C7_amended "/usr" "/usr/bin/python3" ⟨3, 6, 5⟩ (fun _ => none)
    (fun _ => ProbeResult.finished 0 (pythonVersionOutput 3 6 5) [])).1 ⟨3, 6, 5⟩ rfl]
  rfl

theorem get_sys_path_calls_cached (query : String → List String) (exe : String) (k : Nat)
    (v : List String) :
    get_sys_path_calls query exe k (some v) = (List.replicate k v, some v, 0) := by
  induction k with
  | zero => rfl
  | succ k ih =>
    rw [get_sys_path_calls]
    simp [get_sys_path_step, ih, List.replicate_succ]

/-- C8: memoization. On one Environment instance, `k` accesses to the memoized
`get_sys_path` trigger exactly `min k 1` underlying subprocess invocations —
at most one over the instance's lifetime — and every access returns the same
cached value. Accessing `version` is a plain attribute read (the probe already
ran once, inside the constructor), so it spawns nothing. -/
theorem C8_memoization (query : String → List String) (exe : String) (k : Nat) :
    (get_sys_path_calls query exe k none).2.2 = min k 1
    ∧ (get_sys_path_calls query exe k none).1 = List.replicate k (query exe)
    ∧ (∀ e : Environment, version_access e = (e.version_info, 0)) := by
  refine ⟨?_, ?_, fun e => rfl⟩
  · cases k with
    | zero => rfl
    | succ k =>
      rw [get_sys_path_calls]
      simp only [get_sys_path_step, get_sys_path_calls_cached]
      omega
  · cases k with
    | zero => rfl
    | succ k =>
      rw [get_sys_path_calls]
      simp [get_sys_path_step, get_sys_path_calls_cached, List.replicate_succ]

/-- C9: the InProcess environment is a per-process singleton: retrieving it
again from the state left by a retrieval returns the very same tagged instance
and leaves the state untouched, so any sequence of retrievals returns one
single instance (at most one InterpreterEnvironment is ever created). -/
theorem C9_singleton (hostVersion : VersionInfo) (st : ProcessState) :
    (interpreter_environment hostVersion (interpreter_environment hostVersion st).2).1 =
      (interpreter_environment hostVersion st).1
    ∧ (interpreter_environment hostVersion (interpreter_environment hostVersion st).2).2 =
      (interpreter_environment hostVersion st).2
    ∧ (interpreter_environment hostVersion
        { next_id := st.next_id, cached := none }).1.2.version_info = hostVersion := by
  cases h : st.cached with
  | none => simp [interpreter_environment, h, InterpreterEnvironment.construct]
  | some e => simp [interpreter_environment, h, InterpreterEnvironment.construct]

theorem tryVirtualenv_ok (fs : List String) (probe : String → ProbeResult)
    (path : String) (env : Environment) (h : tryVirtualenv fs probe path = some env) :
    _get_version (probe env.executable) = Except.ok env.version_info := by
  unfold tryVirtualenv at h
  cases hg : _get_executable_path fs path with
  | error e =>
    rw [hg] at h
    exact Option.noConfusion (show (none : Option Environment) = some env from h)
  | ok exe =>
    rw [hg] at h
    have h' : (match Environment.construct path exe probe with
      | Except.error _ => (none : Option Environment)
      | Except.ok env => some env) = some env := h
    cases hc : Environment.construct path exe probe with
    | error e =>
      rw [hc] at h'
      exact Option.noConfusion h'
    | ok env2 =>
      rw [hc] at h'
      injection h' with h'
      subst h'
      obtain ⟨-, h2, h3⟩ := Environment.construct_ok _ _ _ _ hc
      rw [h2]
      exact h3

theorem find_virtualenvs_go_mem (fs : List String) (probe : String → ProbeResult)
    (ps : List String) (env : Environment) (h : env ∈ find_virtualenvs_go fs probe ps) :
    _get_version (probe env.executable) = Except.ok env.version_info := by
  induction ps with
  | nil => cases h
  | cons p rest ih =>
    rw [find_virtualenvs_go] at h
    cases ht : tryVirtualenv fs probe p with
    | none =>
      rw [ht] at h
      exact ih h
    | some e =>
      rw [ht] at h
      rcases List.mem_cons.mp h with h1 | h1
      · subst h1
        exact tryVirtualenv_ok fs probe p env ht
      · exact ih h1

theorem get_python_environment_ok (findExecutable : String → Option String)
    (probe : String → ProbeResult) (name : String) (env : Environment)
    (h : get_python_environment findExecutable probe name = Except.ok env) :
    _get_version (probe env.executable) = Except.ok env.version_info := by
  unfold get_python_environment at h
  cases hf : findExecutable name with
  | none => rw [hf] at h; cases h
  | some exe =>
    rw [hf] at h
    obtain ⟨-, h2, h3⟩ := Environment.construct_ok _ _ _ _ h
    rw [h2]
    exact h3

theorem find_python_environments_go_mem (sysPre sysExecutable : String)
    (hostVersion : VersionInfo) (findExecutable : String → Option String)
    (probe : String → ProbeResult) (tags : List String) (env : Environment)
    (h : env ∈ (find_python_environments_go sysPre sysExecutable hostVersion findExecutable
      probe tags).1) :
    _get_version (probe env.executable) = Except.ok env.version_info := by
  induction tags with
  | nil => cases h
  | cons tag rest ih =>
    rw [find_python_environments_go] at h
    by_cases htag : tag = currentVersionString hostVersion
    · rw [if_pos htag] at h
      cases hd : get_default_environment sysPre sysExecutable probe with
      | error e => rw [hd] at h; cases h
      | ok env2 =>
        rw [hd] at h
        rcases List.mem_cons.mp h with h1 | h1
        · subst h1
          obtain ⟨-, h2, h3⟩ := Environment.construct_ok _ _ _ _ hd
          rw [h2]
          exact h3
        · exact ih h1
    · rw [if_neg htag] at h
      cases hg : get_python_environment findExecutable probe ("python" ++ tag) with
      | error e =>
        rw [hg] at h
        exact ih h
      | ok env2 =>
        rw [hg] at h
        rcases List.mem_cons.mp h with h1 | h1
        · subst h1
          exact get_python_environment_ok findExecutable probe ("python" ++ tag) env hg
        · exact ih h1

/-- C10: every Environment any constructor or discovery function actually
returns already carries the fully populated version triple that probing its
executable parses — the probe runs inside `Environment.__init__`, and a probe
failure raises `InvalidPythonEnvironment` before an instance exists, so no
caller can observe an Environment with an unset or malformed version. -/
theorem C10_version_always_populated (fs : List String) (probe : String → ProbeResult)
    (findExecutable : String → Option String) (sysPre sysExecutable path name : String)
    (paths : Option (List String)) (hostVersion : VersionInfo) :
    (∀ env ∈ find_virtualenvs fs probe paths,
      _get_version (probe env.executable) = Except.ok env.version_info)
    ∧ (∀ env ∈ (find_python_environments sysPre sysExecutable hostVersion findExecutable
        probe).1,
      _get_version (probe env.executable) = Except.ok env.version_info)
    ∧ (∀ env, create_environment fs probe path = Except.ok env →
      _get_version (probe env.executable) = Except.ok env.version_info)
    ∧ (∀ env, get_default_environment sysPre sysExecutable probe = Except.ok env →
      _get_version (probe env.executable) = Except.ok env.version_info)
    ∧ (∀ env, get_python_environment findExecutable probe name = Except.ok env →
      _get_version (probe env.executable) = Except.ok env.version_info) := by
  refine ⟨?_, ?_, ?_, ?_, ?_⟩
  · intro env h
    exact find_virtualenvs_go_mem fs probe (paths.getD []) env h
  · intro env h
    exact find_python_environments_go_mem sysPre sysExecutable hostVersion findExecutable
      probe _SUPPORTED_PYTHONS env h
  · intro env h
    unfold create_environment at h
    cases hg : _get_executable_path fs path with
    | error e => rw [hg] at h; cases h
    | ok exe =>
      rw [hg] at h
      obtain ⟨-, h2, h3⟩ := Environment.construct_ok _ _ _ _ h
      rw [h2]
      exact h3
  · intro env h
    obtain ⟨-, h2, h3⟩ := Environment.construct_ok _ _ _ _ h
    rw [h2]
    exact h3
  · intro env h
    exact get_python_environment_ok findExecutable probe name env h

/-- Witness for C10 through `create_environment` on a concrete valid directory
whose interpreter reports `Python 2.7.18`. -/
theorem C10_version_always_populated_witness :
    _get_version ((fun _ => ProbeResult.finished 0 (pythonVersionOutput 2 7 18) [])
      (Environment.mk "/opt/venv" "/opt/venv/bin/python" ⟨2, 7, 18⟩).executable) =
      Except.ok (Environment.mk "/opt/venv" "/opt/venv/bin/python" ⟨2, 7, 18⟩).version_info :=
  (C10_version_always_populated ["/opt/venv/bin/activate", "/opt/venv/bin/python"]
    (fun _ => ProbeResult.finished 0 (pythonVersionOutput 2 7 18) [])
    (fun _ => none) "/usr" "/usr/bin/python3" "/opt/venv" "python3.3" none
    ⟨3, 6, 5⟩).2.2.1 (Environment.mk "/opt/venv" "/opt/venv/bin/python" ⟨2, 7, 18⟩) rfl
